import Mathlib

/-!
Shallow embedding of `src/eventGridMqttClient.ts` (class `EventGridMqttClient`).

The filesystem is modelled by two oracles passed explicitly: `fsExists`
(for `fs.existsSync`) and `readFileSync` (for `fs.readFileSync`, returning
`Except` since a read may throw).  The mqtt.js transport is modelled by the
list of events the broker delivers (with millisecond timestamps) and by the
per-operation callback outcomes; the network packets the client emits are
recorded as `NetAction` values.
-/

namespace EventGrid

/-- A character accepted by the source regex /^[a-zA-Z0-9-_]$/ used on each
character of the client ID. -/
def isAllowedChar (c : Char) : Bool :=
  (97 ≤ c.toNat && c.toNat ≤ 122) || (65 ≤ c.toNat && c.toNat ≤ 90) ||
  (48 ≤ c.toNat && c.toNat ≤ 57) || c == '-' || c == '_'

/-- Insertion into a JavaScript `Set`: duplicates are dropped, first-occurrence
order is kept. -/
def jsSetInsert (acc : List Char) (c : Char) : List Char :=
  if c ∈ acc then acc else acc ++ [c]

/-- `new Set([...xs])` spread back to a list: deduplication keeping the first
occurrence of each element. -/
def dedupFirst (l : List Char) : List Char := l.foldl jsSetInsert []

/-- `[...new Set([...clientId].filter(c => !/^[a-zA-Z0-9-_]$/.test(c)))]` -/
def invalidCharsOf (clientId : String) : List Char :=
  dedupFirst (clientId.toList.filter (fun c => !isAllowedChar c))

/-- The `EventGridMqttClientOptions` interface. -/
structure EventGridMqttClientOptions where
  «namespace» : String
  region : String
  clientId : String
  username : String
  clientCertFile : String
  clientKeyFile : String
  caCertFile : Option String := none
  clientKeyPassword : Option String := none
  topicSpace : Option String := none
  deriving DecidableEq, Repr

/-- The mutable fields of class `EventGridMqttClient`: the six copied
configuration fields plus `client` (`MqttClient | null`, the handle itself
carrying no model state) and the `connected` boolean. -/
structure EventGridMqttClient where
  «namespace» : String
  region : String
  clientId : String
  username : String
  clientCertFile : String
  clientKeyFile : String
  client : Option Unit := none
  connected : Bool := false
  deriving DecidableEq, Repr

/-- `validateConfiguration()`: the checks in source order, each `throw`
modelled as `Except.error` with the thrown message. -/
def validateConfiguration (fsExists : String → Bool) (s : EventGridMqttClient) :
    Except String Unit :=
  if s.«namespace» = "" then Except.error "Namespace is required"
  else if s.region = "" then Except.error "Region is required"
  else if s.clientId = "" then Except.error "Client ID is required"
  else if s.username = "" then Except.error "Username is required"
  else if s.clientCertFile = "" then Except.error "Client certificate file is required"
  else if s.clientKeyFile = "" then Except.error "Client private key file is required"
  else if 23 < s.clientId.length then
    Except.error ("Client ID '" ++ s.clientId ++ "' is " ++ toString s.clientId.length ++
      " characters long. MQTT client ID must be ≤ 23 characters.")
  else if 0 < (invalidCharsOf s.clientId).length then
    Except.error ("Client ID '" ++ s.clientId ++ "' contains invalid characters: " ++
      String.mk (invalidCharsOf s.clientId))
  else if !fsExists s.clientCertFile then
    Except.error ("Client certificate file not found: " ++ s.clientCertFile)
  else if !fsExists s.clientKeyFile then
    Except.error ("Client key file not found: " ++ s.clientKeyFile)
  else Except.ok ()

/-- The object state right after the constructor's field assignments:
the six fields copied from `opts`, `client = null`, `connected = false`. -/
def initialState (opts : EventGridMqttClientOptions) : EventGridMqttClient :=
  { «namespace» := opts.«namespace», region := opts.region,
    clientId := opts.clientId, username := opts.username,
    clientCertFile := opts.clientCertFile, clientKeyFile := opts.clientKeyFile }

/-- The constructor: copy the six fields, then `validateConfiguration()`.
A thrown validation error is `Except.error`; no network oracle is in scope,
so construction can do no network I/O by shape. -/
def mkEventGridMqttClient (fsExists : String → Bool)
    (opts : EventGridMqttClientOptions) : Except String EventGridMqttClient :=
  match validateConfiguration fsExists (initialState opts) with
  | Except.error e => Except.error e
  | Except.ok _ => Except.ok (initialState opts)

/-- Events delivered by the mqtt.js client to the handlers registered in
`connect()` (CONNACK carries an optional MQTT v5 reason code). -/
inductive MqttEvent where
  | connack (reasonCode : Option Nat)
  | error (message : String)
  | close
  | disconnectEvt (reasonCode : Option Nat)
  | message (topic : String) (payload : String)
  deriving DecidableEq, Repr

/-- The `connect` handler: `const code = packet.reasonCode ?? 0; if (code === 0)
this.connected = true; else log`. -/
def onConnect (reasonCode : Option Nat) (s : EventGridMqttClient) : EventGridMqttClient :=
  let code := reasonCode.getD 0
  if code = 0 then { s with connected := true } else s

/-- The `error` handler: logs only, no state change. -/
def onError (_message : String) (s : EventGridMqttClient) : EventGridMqttClient := s

/-- The `close` handler: `this.connected = false`. -/
def onClose (s : EventGridMqttClient) : EventGridMqttClient := { s with connected := false }

/-- The `disconnect` handler: logs the reason code only, no state change. -/
def onDisconnect (_reasonCode : Option Nat) (s : EventGridMqttClient) : EventGridMqttClient := s

/-- The `message` handler: logs only, no state change. -/
def onMessage (_topic _payload : String) (s : EventGridMqttClient) : EventGridMqttClient := s

/-- Dispatch one delivered event to the handler registered for it. -/
def handleEvent (s : EventGridMqttClient) : MqttEvent → EventGridMqttClient
  | MqttEvent.connack rc => onConnect rc s
  | MqttEvent.error m => onError m s
  | MqttEvent.close => onClose s
  | MqttEvent.disconnectEvt rc => onDisconnect rc s
  | MqttEvent.message t p => onMessage t p s

/-- Does an event set `connected` (a CONNACK whose `reasonCode ?? 0` is 0)? -/
def isSuccessAck : MqttEvent → Bool
  | MqttEvent.connack rc => rc.getD 0 == 0
  | _ => false

/-- The client state at time `t` (ms since `connect()` started): all events
delivered no later than `t` have been handed to the handlers, in order. -/
def stateAt (s : EventGridMqttClient) (events : List (Nat × MqttEvent)) (t : Nat) :
    EventGridMqttClient :=
  (events.filter (fun p => decide (p.1 ≤ t))).foldl (fun st p => handleEvent st p.2) s

/-- One step of `while (!this.connected && Date.now() - start < 10_000) await
sleep(100)`, polling at `t = k·100`; structural fuel (101 suffices from `k = 0`)
stands in for the source's real-time bound. Returns the result of the
`connected` read together with the elapsed time at exit. -/
def connectLoopAux (connectedAt : Nat → Bool) : Nat → Nat → Bool × Nat
  | 0, k => (connectedAt (k * 100), k * 100)
  | fuel + 1, k =>
    if connectedAt (k * 100) then (true, k * 100)
    else if k * 100 < 10000 then connectLoopAux connectedAt fuel (k + 1)
    else (false, k * 100)

/-- The full wait loop of `connect()`, entered at elapsed time 0. -/
def connectLoop (connectedAt : Nat → Bool) : Bool × Nat :=
  connectLoopAux connectedAt 101 0

/-- `mqtts://${this.namespace}.${this.region}-1.ts.eventgrid.azure.net:8883` -/
def brokerUrl (s : EventGridMqttClient) : String :=
  "mqtts://" ++ s.«namespace» ++ "." ++ s.region ++ "-1.ts.eventgrid.azure.net:8883"

/-- The `IClientOptions` object built inside `connect()`. -/
structure IClientOptions where
  clientId : String
  protocolVersion : Nat
  username : String
  clean : Bool
  cert : String
  key : String
  deriving DecidableEq, Repr

/-- The options literal passed to `mqtt.connect(url, options)`. -/
def connectOptions (s : EventGridMqttClient) (cert key : String) : IClientOptions :=
  { clientId := s.clientId, protocolVersion := 5, username := s.username,
    clean := true, cert := cert, key := key }

/-- `connect()`: read the two credential files (`fs.readFileSync` — an
uncaught throw is `Except.error`), create the client handle, register the
handlers, then run the bounded poll loop.  Returns the boolean result and the
client state at the moment the loop exits. -/
def connect (readFileSync : String → Except String String) (s : EventGridMqttClient)
    (events : List (Nat × MqttEvent)) : Except String (Bool × EventGridMqttClient) :=
  let _url := brokerUrl s
  match readFileSync s.clientCertFile with
  | Except.error e => Except.error e
  | Except.ok cert =>
    match readFileSync s.clientKeyFile with
    | Except.error e => Except.error e
    | Except.ok key =>
      let _options := connectOptions s cert key
      let s1 : EventGridMqttClient := { s with client := some () }
      let r := connectLoop (fun t => (stateAt s1 events t).connected)
      Except.ok (r.1, stateAt s1 events r.2)

/-- MQTT packets the client hands to the transport library. -/
inductive NetAction where
  | subscribeAct (topic : String) (qos : Nat)
  | publishAct (topic : String) (payload : String) (qos : Nat)
  | endAct (force : Bool) (properties : List (String × String))
  deriving DecidableEq, Repr

/-- `disconnect()`: `if (!this.client) return; this.client.end(true, {}, cb)`.
No field of the session is written; the emitted action list records the call
into the transport library. -/
def disconnect (s : EventGridMqttClient) : EventGridMqttClient × List NetAction :=
  match s.client with
  | none => (s, [])
  | some _ => (s, [NetAction.endAct true []])

/-- An event payload: `PublishEvent` is an arbitrary JSON-serializable
mapping; flat string fields suffice for this model. -/
def PublishEvent := List (String × String)

/-- `JSON.stringify(event)` for the flat-object model. -/
def jsonStringify (e : PublishEvent) : String :=
  "\x7b" ++ String.intercalate ","
    (e.map (fun kv => "\x22" ++ kv.1 ++ "\x22:\x22" ++ kv.2 ++ "\x22")) ++ "\x7d"

/-- `subscribe(topic, qos)`: gate on `!this.client || !this.connected`, then
issue SUBSCRIBE; the broker callback outcome (`err` or granted) is `suback`.
The returned triple is ((promise value, emitted packets), this). -/
def subscribe (s : EventGridMqttClient) (topic : String) (qos : Nat)
    (suback : Except String Unit) : (Bool × List NetAction) × EventGridMqttClient :=
  if s.client.isNone || !s.connected then ((false, []), s)
  else
    match suback with
    | Except.error _ => ((false, [NetAction.subscribeAct topic qos]), s)
    | Except.ok _ => ((true, [NetAction.subscribeAct topic qos]), s)

/-- `publish(topic, event, qos)`: gate on `!this.client || !this.connected`,
serialize, then issue PUBLISH; the broker callback outcome is `puback`. -/
def publish (s : EventGridMqttClient) (topic : String) (event : PublishEvent) (qos : Nat)
    (puback : Except String Unit) : (Bool × List NetAction) × EventGridMqttClient :=
  if s.client.isNone || !s.connected then ((false, []), s)
  else
    let payload := jsonStringify event
    match puback with
    | Except.error _ => ((false, [NetAction.publishAct topic payload qos]), s)
    | Except.ok _ => ((true, [NetAction.publishAct topic payload qos]), s)

/-- The immutable configuration part of the session, as a tuple. -/
def configOf (s : EventGridMqttClient) :
    String × String × String × String × String × String :=
  (s.«namespace», s.region, s.clientId, s.username, s.clientCertFile, s.clientKeyFile)

/-- The configuration invariant established by `validateConfiguration` (the
parts that do not mention the filesystem). -/
def ConfigValid (s : EventGridMqttClient) : Prop :=
  s.«namespace» ≠ "" ∧ s.region ≠ "" ∧ s.clientId ≠ "" ∧ s.username ≠ "" ∧
  s.clientCertFile ≠ "" ∧ s.clientKeyFile ≠ "" ∧ s.clientId.length ≤ 23 ∧
  ∀ c ∈ s.clientId.toList, isAllowedChar c = true

/-- Endpoint formula as the specification words it:
mqtts://(namespace).(region)-1.(domain):8883 with the domain a separate part. -/
def spec_brokerEndpoint (nspace regionName domain : String) : String :=
  "mqtts://" ++ nspace ++ "." ++ regionName ++ "-1." ++ domain ++ ":8883"

/-! ### Helper lemmas -/

lemma mem_jsSetInsert (acc : List Char) (a c : Char) :
    c ∈ jsSetInsert acc a ↔ c ∈ acc ∨ c = a := by
  unfold jsSetInsert
  split
  · rename_i h
    constructor
    · exact Or.inl
    · rintro (hc | rfl)
      · exact hc
      · exact h
  · simp [List.mem_append]

lemma nodup_jsSetInsert (acc : List Char) (a : Char) (h : acc.Nodup) :
    (jsSetInsert acc a).Nodup := by
  unfold jsSetInsert
  split
  · exact h
  · rename_i hna
    simp [List.nodup_append, h, List.disjoint_singleton, hna]

lemma mem_foldl_jsSetInsert (l : List Char) :
    ∀ (acc : List Char) (c : Char), c ∈ l.foldl jsSetInsert acc ↔ c ∈ acc ∨ c ∈ l := by
  induction l with
  | nil => intro acc c; simp
  | cons a t ih =>
    intro acc c
    rw [List.foldl_cons, ih, mem_jsSetInsert]
    simp [List.mem_cons]
    tauto

lemma nodup_foldl_jsSetInsert (l : List Char) :
    ∀ (acc : List Char), acc.Nodup → (l.foldl jsSetInsert acc).Nodup := by
  induction l with
  | nil => intro acc h; simpa using h
  | cons a t ih =>
    intro acc h
    rw [List.foldl_cons]
    exact ih _ (nodup_jsSetInsert acc a h)

lemma mem_dedupFirst (l : List Char) (c : Char) : c ∈ dedupFirst l ↔ c ∈ l := by
  unfold dedupFirst
  rw [mem_foldl_jsSetInsert]
  simp

lemma nodup_dedupFirst (l : List Char) : (dedupFirst l).Nodup :=
  nodup_foldl_jsSetInsert l [] List.nodup_nil

lemma mem_invalidCharsOf (cid : String) (c : Char) :
    c ∈ invalidCharsOf cid ↔ c ∈ cid.toList ∧ isAllowedChar c = false := by
  unfold invalidCharsOf
  rw [mem_dedupFirst, List.mem_filter]
  simp

lemma nodup_invalidCharsOf (cid : String) : (invalidCharsOf cid).Nodup :=
  nodup_dedupFirst _

lemma invalidCharsOf_eq_nil_iff (cid : String) :
    invalidCharsOf cid = [] ↔ ∀ c ∈ cid.toList, isAllowedChar c = true := by
  constructor
  · intro h c hc
    by_contra hb
    have hm : c ∈ invalidCharsOf cid :=
      (mem_invalidCharsOf cid c).mpr ⟨hc, by simpa using hb⟩
    rw [h] at hm
    simp at hm
  · intro h
    rw [List.eq_nil_iff_forall_not_mem]
    intro c hc
    have := (mem_invalidCharsOf cid c).mp hc
    rw [h c this.1] at this
    simp at this

lemma connected_handleEvent_false (s : EventGridMqttClient) (e : MqttEvent)
    (hs : s.connected = false) (he : isSuccessAck e = false) :
    (handleEvent s e).connected = false := by
  cases e with
  | connack rc =>
    have : ¬ rc.getD 0 = 0 := by
      simpa [isSuccessAck] using he
    simp [handleEvent, onConnect, this, hs]
  | error m => simpa [handleEvent, onError] using hs
  | close => simp [handleEvent, onClose]
  | disconnectEvt rc => simpa [handleEvent, onDisconnect] using hs
  | message t p => simpa [handleEvent, onMessage] using hs

lemma connected_handleEvent_true (s : EventGridMqttClient) (e : MqttEvent)
    (hs : s.connected = true) (he : e ≠ MqttEvent.close) :
    (handleEvent s e).connected = true := by
  cases e with
  | connack rc =>
    by_cases h : rc.getD 0 = 0 <;> simp [handleEvent, onConnect, h, hs]
  | error m => simpa [handleEvent, onError] using hs
  | close => exact absurd rfl he
  | disconnectEvt rc => simpa [handleEvent, onDisconnect] using hs
  | message t p => simpa [handleEvent, onMessage] using hs

lemma connected_handleEvent_success (s : EventGridMqttClient) (e : MqttEvent)
    (he : isSuccessAck e = true) : (handleEvent s e).connected = true := by
  cases e with
  | connack rc =>
    have : rc.getD 0 = 0 := by simpa [isSuccessAck] using he
    simp [handleEvent, onConnect, this]
  | error m => simp [isSuccessAck] at he
  | close => simp [isSuccessAck] at he
  | disconnectEvt rc => simp [isSuccessAck] at he
  | message t p => simp [isSuccessAck] at he

lemma foldl_connected_false (l : List (Nat × MqttEvent)) :
    ∀ s : EventGridMqttClient, s.connected = false →
      (∀ p ∈ l, isSuccessAck p.2 = false) →
      (l.foldl (fun st p => handleEvent st p.2) s).connected = false := by
  induction l with
  | nil => intro s hs _; simpa using hs
  | cons a t ih =>
    intro s hs h
    rw [List.foldl_cons]
    exact ih _ (connected_handleEvent_false s a.2 hs (h a (List.mem_cons_self a t)))
      (fun p hp => h p (List.mem_cons_of_mem a hp))

lemma foldl_connected_stays (l : List (Nat × MqttEvent)) :
    ∀ s : EventGridMqttClient, s.connected = true →
      (∀ p ∈ l, p.2 ≠ MqttEvent.close) →
      (l.foldl (fun st p => handleEvent st p.2) s).connected = true := by
  induction l with
  | nil => intro s hs _; simpa using hs
  | cons a t ih =>
    intro s hs h
    rw [List.foldl_cons]
    exact ih _ (connected_handleEvent_true s a.2 hs (h a (List.mem_cons_self a t)))
      (fun p hp => h p (List.mem_cons_of_mem a hp))

lemma foldl_connected_of_mem (l : List (Nat × MqttEvent)) :
    ∀ s : EventGridMqttClient,
      (∃ p ∈ l, isSuccessAck p.2 = true) →
      (∀ p ∈ l, p.2 ≠ MqttEvent.close) →
      (l.foldl (fun st p => handleEvent st p.2) s).connected = true := by
  induction l with
  | nil => intro s hex _; simp at hex
  | cons a t ih =>
    intro s hex hnc
    obtain ⟨p, hp, hps⟩ := hex
    rw [List.foldl_cons]
    rcases List.mem_cons.mp hp with rfl | hpt
    · exact foldl_connected_stays t _ (connected_handleEvent_success s p.2 hps)
        (fun q hq => hnc q (List.mem_cons_of_mem p hq))
    · exact ih _ ⟨p, hpt, hps⟩ (fun q hq => hnc q (List.mem_cons_of_mem a hq))

lemma stateAt_connected_false (s : EventGridMqttClient) (events : List (Nat × MqttEvent))
    (t : Nat) (hs : s.connected = false)
    (h : ∀ p ∈ events, isSuccessAck p.2 = false) :
    (stateAt s events t).connected = false :=
  foldl_connected_false _ s hs (fun p hp => h p (List.mem_filter.mp hp).1)

lemma stateAt_connected_true (s : EventGridMqttClient) (events : List (Nat × MqttEvent))
    (t t0 : Nat) (e0 : MqttEvent) (hmem : (t0, e0) ∈ events) (h0 : isSuccessAck e0 = true)
    (ht : t0 ≤ t) (hnc : ∀ p ∈ events, p.2 ≠ MqttEvent.close) :
    (stateAt s events t).connected = true := by
  apply foldl_connected_of_mem
  · exact ⟨(t0, e0), List.mem_filter.mpr ⟨hmem, decide_eq_true ht⟩, h0⟩
  · exact fun p hp => hnc p (List.mem_filter.mp hp).1

lemma connectLoopAux_fst_eq (f : Nat → Bool) :
    ∀ (fuel k : Nat), (connectLoopAux f fuel k).1 = f ((connectLoopAux f fuel k).2) := by
  intro fuel
  induction fuel with
  | zero => intro k; rfl
  | succ n ih =>
    intro k
    unfold connectLoopAux
    by_cases h : f (k * 100) = true
    · simp [h]
    · have h' : f (k * 100) = false := by simpa using h
      by_cases h2 : k * 100 < 10000
      · simp [h', h2]
        exact ih (k + 1)
      · simp [h', h2]

lemma connectLoop_fst_eq (f : Nat → Bool) :
    (connectLoop f).1 = f (connectLoop f).2 :=
  connectLoopAux_fst_eq f 101 0

lemma connectLoopAux_never (f : Nat → Bool) (hf : ∀ t, f t = false) :
    ∀ (fuel k : Nat), 100 - k < fuel → k ≤ 100 → connectLoopAux f fuel k = (false, 10000) := by
  intro fuel
  induction fuel with
  | zero => intro k h _; omega
  | succ n ih =>
    intro k hfuel hk
    unfold connectLoopAux
    rw [hf (k * 100)]
    by_cases h2 : k * 100 < 10000
    · simp only [Bool.false_eq_true, if_false, h2, if_true]
      exact ih (k + 1) (by omega) (by omega)
    · have hk100 : k = 100 := by omega
      subst hk100
      norm_num

lemma connectLoop_never (f : Nat → Bool) (hf : ∀ t, f t = false) :
    connectLoop f = (false, 10000) :=
  connectLoopAux_never f hf 101 0 (by norm_num) (by norm_num)

lemma connectLoopAux_eventually (f : Nat → Bool) (t0 : Nat) (ht0 : t0 ≤ 10000)
    (hf : ∀ t, t0 ≤ t → f t = true) :
    ∀ (fuel k : Nat), 100 - k < fuel → k ≤ 100 → (connectLoopAux f fuel k).1 = true := by
  intro fuel
  induction fuel with
  | zero => intro k h _; omega
  | succ n ih =>
    intro k hfuel hk
    unfold connectLoopAux
    by_cases h : f (k * 100) = true
    · simp [h]
    · have h' : f (k * 100) = false := by simpa using h
      have hlt : k * 100 < t0 := by
        by_contra hge
        push_neg at hge
        rw [hf _ hge] at h'
        simp at h'
      have h2 : k * 100 < 10000 := lt_of_lt_of_le hlt ht0
      simp only [h', Bool.false_eq_true, if_false, h2, if_true]
      exact ih (k + 1) (by omega) (by omega)

lemma connectLoop_eventually (f : Nat → Bool) (t0 : Nat) (ht0 : t0 ≤ 10000)
    (hf : ∀ t, t0 ≤ t → f t = true) : (connectLoop f).1 = true :=
  connectLoopAux_eventually f t0 ht0 hf 101 0 (by norm_num) (by norm_num)

lemma configOf_handleEvent (s : EventGridMqttClient) (e : MqttEvent) :
    configOf (handleEvent s e) = configOf s := by
  cases e with
  | connack rc =>
    by_cases h : rc.getD 0 = 0 <;> simp [handleEvent, onConnect, h, configOf]
  | error m => rfl
  | close => rfl
  | disconnectEvt rc => rfl
  | message t p => rfl

lemma configOf_foldl (l : List (Nat × MqttEvent)) :
    ∀ s : EventGridMqttClient,
      configOf (l.foldl (fun st p => handleEvent st p.2) s) = configOf s := by
  induction l with
  | nil => intro s; rfl
  | cons a t ih =>
    intro s
    rw [List.foldl_cons, ih, configOf_handleEvent]

lemma configOf_stateAt (s : EventGridMqttClient) (events : List (Nat × MqttEvent)) (t : Nat) :
    configOf (stateAt s events t) = configOf s :=
  configOf_foldl _ s

set_option maxHeartbeats 2000000 in
lemma validateConfiguration_ok_iff (fsExists : String → Bool) (s : EventGridMqttClient) :
    validateConfiguration fsExists s = Except.ok () ↔
      (s.«namespace» ≠ "" ∧ s.region ≠ "" ∧ s.clientId ≠ "" ∧ s.username ≠ "" ∧
       s.clientCertFile ≠ "" ∧ s.clientKeyFile ≠ "" ∧ s.clientId.length ≤ 23 ∧
       (∀ c ∈ s.clientId.toList, isAllowedChar c = true) ∧
       fsExists s.clientCertFile = true ∧ fsExists s.clientKeyFile = true) := by
  unfold validateConfiguration
  split_ifs with h1 h2 h3 h4 h5 h6 h7 h8 h9 h10
  · exact iff_of_false id (fun hc => hc.1 h1)
  · exact iff_of_false id (fun hc => hc.2.1 h2)
  · exact iff_of_false id (fun hc => hc.2.2.1 h3)
  · exact iff_of_false id (fun hc => hc.2.2.2.1 h4)
  · exact iff_of_false id (fun hc => hc.2.2.2.2.1 h5)
  · exact iff_of_false id (fun hc => hc.2.2.2.2.2.1 h6)
  · refine iff_of_false id ?_
    rintro ⟨-, -, -, -, -, -, hlen, -⟩
    omega
  · refine iff_of_false id ?_
    rintro ⟨-, -, -, -, -, -, -, hchars, -⟩
    rw [List.length_pos, Ne, invalidCharsOf_eq_nil_iff] at h8
    exact h8 hchars
  · refine iff_of_false id ?_
    rintro ⟨-, -, -, -, -, -, -, -, hcert, -⟩
    rw [hcert] at h9
    simp at h9
  · refine iff_of_false id ?_
    rintro ⟨-, -, -, -, -, -, -, -, -, hkey⟩
    rw [hkey] at h10
    simp at h10
  · refine iff_of_true rfl ⟨h1, h2, h3, h4, h5, h6, by omega, ?_, ?_, ?_⟩
    · rw [← invalidCharsOf_eq_nil_iff]
      rcases h : invalidCharsOf s.clientId with _ | ⟨c, cs⟩
      · rfl
      · rw [h] at h8
        simp at h8
    · revert h9
      cases fsExists s.clientCertFile <;> simp
    · revert h10
      cases fsExists s.clientKeyFile <;> simp


lemma connect_eq_of_reads (rf : String → Except String String) (s : EventGridMqttClient)
    (events : List (Nat × MqttEvent)) (cert key : String)
    (hcert : rf s.clientCertFile = Except.ok cert)
    (hkey : rf s.clientKeyFile = Except.ok key) :
    connect rf s events =
      Except.ok
        ((connectLoop fun t => (stateAt { s with client := some () } events t).connected).1,
          stateAt { s with client := some () } events
            (connectLoop fun t => (stateAt { s with client := some () } events t).connected).2) := by
  unfold connect
  rw [hcert, hkey]

lemma connect_success_run (rf : String → Except String String) (s : EventGridMqttClient)
    (events : List (Nat × MqttEvent)) (cert key : String)
    (hcert : rf s.clientCertFile = Except.ok cert)
    (hkey : rf s.clientKeyFile = Except.ok key)
    (hex : ∃ t0 e0, (t0, e0) ∈ events ∧ isSuccessAck e0 = true ∧ t0 ≤ 10000)
    (hnc : ∀ p ∈ events, p.2 ≠ MqttEvent.close) :
    (connect rf s events).map (fun r => (r.1, r.2.connected)) = Except.ok (true, true) := by
  obtain ⟨t0, e0, hmem, hsucc, ht0⟩ := hex
  rw [connect_eq_of_reads rf s events cert key hcert hkey]
  have hftrue : ∀ t, t0 ≤ t →
      (fun t => (stateAt { s with client := some () } events t).connected) t = true :=
    fun t ht => stateAt_connected_true _ events t t0 e0 hmem hsucc ht hnc
  have h1 := connectLoop_eventually _ t0 ht0 hftrue
  have h2 := connectLoop_fst_eq
    (fun t => (stateAt { s with client := some () } events t).connected)
  rw [h1] at h2
  simp only [Except.map, h1, ← h2]

lemma connect_failure_run (rf : String → Except String String) (s : EventGridMqttClient)
    (events : List (Nat × MqttEvent)) (cert key : String)
    (hcert : rf s.clientCertFile = Except.ok cert)
    (hkey : rf s.clientKeyFile = Except.ok key)
    (hsc : s.connected = false)
    (hnone : ∀ p ∈ events, isSuccessAck p.2 = false) :
    connectLoop (fun t => (stateAt { s with client := some () } events t).connected) =
      (false, 10000) ∧
    (connect rf s events).map (fun r => (r.1, r.2.connected)) = Except.ok (false, false) := by
  have hffalse : ∀ t,
      (fun t => (stateAt { s with client := some () } events t).connected) t = false :=
    fun t => stateAt_connected_false _ events t (by simpa using hsc) hnone
  have hloop := connectLoop_never _ hffalse
  refine ⟨hloop, ?_⟩
  rw [connect_eq_of_reads rf s events cert key hcert hkey]
  simp only [Except.map, hloop, hffalse 10000]

lemma mk_ok_inv (fsExists : String → Bool) (opts : EventGridMqttClientOptions)
    (s : EventGridMqttClient) (h : mkEventGridMqttClient fsExists opts = Except.ok s) :
    s = initialState opts ∧ validateConfiguration fsExists s = Except.ok () := by
  unfold mkEventGridMqttClient at h
  cases hval : validateConfiguration fsExists (initialState opts) with
  | error e =>
    rw [hval] at h
    exact absurd h (fun hh => Except.noConfusion hh)
  | ok u =>
    rw [hval] at h
    injection h with h'
    cases u
    subst h'
    exact ⟨rfl, hval⟩

lemma connect_ok_inv (rf : String → Except String String) (s st : EventGridMqttClient)
    (events : List (Nat × MqttEvent)) (b : Bool)
    (h : connect rf s events = Except.ok (b, st)) :
    configOf st = configOf s := by
  unfold connect at h
  cases hc : rf s.clientCertFile with
  | error e =>
    rw [hc] at h
    exact absurd h (fun hh => Except.noConfusion hh)
  | ok cert =>
    cases hk : rf s.clientKeyFile with
    | error e =>
      rw [hc, hk] at h
      exact absurd h (fun hh => Except.noConfusion hh)
    | ok key =>
      rw [hc, hk] at h
      injection h with h'
      have hst : st = stateAt { s with client := some () } events
          (connectLoop fun t => (stateAt { s with client := some () } events t).connected).2 :=
        ((Prod.ext_iff.mp h').2).symm
      rw [hst, configOf_stateAt]
      rfl

lemma configOf_fields (a b : EventGridMqttClient) (h : configOf a = configOf b) :
    a.«namespace» = b.«namespace» ∧ a.region = b.region ∧ a.clientId = b.clientId ∧
    a.username = b.username ∧ a.clientCertFile = b.clientCertFile ∧
    a.clientKeyFile = b.clientKeyFile := by
  unfold configOf at h
  simpa [Prod.ext_iff] using h

lemma configValid_of_configOf_eq (a b : EventGridMqttClient)
    (h : configOf a = configOf b) (hv : ConfigValid b) : ConfigValid a := by
  obtain ⟨h1, h2, h3, h4, h5, h6⟩ := configOf_fields a b h
  unfold ConfigValid at hv ⊢
  rw [h1, h2, h3, h4, h5, h6]
  exact hv

/-! ### Concrete fixtures used by witnesses and counterexamples -/

/-- The demo configuration from `src/main.ts`. -/
def optsDemo : EventGridMqttClientOptions :=
  { «namespace» := "kwasniewski-event-grid-test", region := "eastus", clientId := "admin1",
    username := "admin1", clientCertFile := "admin_public_key.pem",
    clientKeyFile := "admin_private_key.pem" }

/-- The demo client right after construction. -/
def sDemo : EventGridMqttClient := initialState optsDemo

/-- A filesystem on which every path exists. -/
def fsAll : String → Bool := fun _ => true

/-- A readFileSync that succeeds on every path. -/
def rfOk : String → Except String String := fun _ => Except.ok "PEM-DATA"

/-- A readFileSync whose every read throws ENOENT. -/
def rfENOENT : String → Except String String :=
  fun path => Except.error ("ENOENT: no such file or directory, open " ++ path)

/-! ### C1 -/

/-- C1: for every call to connect(), if a connect-acknowledgment whose
reason code (after the `?? 0` default) is 0 is delivered within the 10000 ms
window, and the transport does not close the connection during the attempt,
then connect() returns true and the session is Connected (`connected = true`);
and if every delivered connect-acknowledgment carries a nonzero reason code
(error, close, disconnect and message events freely interleaved), connect()
returns false and the session ends in the failed, not-connected state
(`connected = false` — the source keeps no separate Failed field). -/
theorem connect_reason_code_semantics (rf : String → Except String String)
    (s : EventGridMqttClient) (events : List (Nat × MqttEvent)) (cert key : String)
    (hcert : rf s.clientCertFile = Except.ok cert)
    (hkey : rf s.clientKeyFile = Except.ok key) :
    ((∃ t0 e0, (t0, e0) ∈ events ∧ isSuccessAck e0 = true ∧ t0 ≤ 10000) →
      (∀ p ∈ events, p.2 ≠ MqttEvent.close) →
      (connect rf s events).map (fun r => (r.1, r.2.connected)) = Except.ok (true, true)) ∧
    (s.connected = false → (∀ p ∈ events, isSuccessAck p.2 = false) →
      (connect rf s events).map (fun r => (r.1, r.2.connected)) = Except.ok (false, false)) :=
  ⟨fun hex hnc => connect_success_run rf s events cert key hcert hkey hex hnc,
   fun hsc hnone => (connect_failure_run rf s events cert key hcert hkey hsc hnone).2⟩

/-- Witness for C1: a CONNACK with reason code 0 at t = 0 yields true/Connected. -/
theorem connect_reason_code_semantics_witness :
    (connect rfOk sDemo [(0, MqttEvent.connack (some 0))]).map
      (fun r => (r.1, r.2.connected)) = Except.ok (true, true) :=
  (connect_reason_code_semantics rfOk sDemo [(0, MqttEvent.connack (some 0))]
      "PEM-DATA" "PEM-DATA" rfl rfl).1
    ⟨0, MqttEvent.connack (some 0), by decide, by decide, by decide⟩ (by decide)

/-! ### C2 -/

/-- C2: construction succeeds exactly when namespace, region, clientId,
username and both credential file paths are non-empty, the clientId is at
most 23 characters all from [A-Za-z0-9_-], and both referenced files exist
on the (oracle) disk; otherwise it throws the validation error before any
network I/O — the constructor has no network capability in the model, so
failure happens with zero network activity by construction. -/
theorem construction_validates_iff (fsExists : String → Bool)
    (opts : EventGridMqttClientOptions) :
    (∃ s, mkEventGridMqttClient fsExists opts = Except.ok s) ↔
      (opts.«namespace» ≠ "" ∧ opts.region ≠ "" ∧ opts.clientId ≠ "" ∧
       opts.username ≠ "" ∧ opts.clientCertFile ≠ "" ∧ opts.clientKeyFile ≠ "" ∧
       opts.clientId.length ≤ 23 ∧
       (∀ c ∈ opts.clientId.toList, isAllowedChar c = true) ∧
       fsExists opts.clientCertFile = true ∧ fsExists opts.clientKeyFile = true) := by
  have hval := validateConfiguration_ok_iff fsExists (initialState opts)
  unfold mkEventGridMqttClient
  cases h : validateConfiguration fsExists (initialState opts) with
  | error e =>
    rw [h] at hval
    constructor
    · rintro ⟨s, hs⟩
      exact absurd hs (fun hh => Except.noConfusion hh)
    · intro hc
      exact absurd (hval.mpr hc) (fun hh => Except.noConfusion hh)
  | ok u =>
    cases u
    rw [h] at hval
    constructor
    · intro _
      exact hval.mp rfl
    · intro _
      exact ⟨initialState opts, rfl⟩

/-! ### C3 -/

/-- C3: in any execution of connect() in which no successful
connect-acknowledgment is ever delivered, the poll loop exits with result
false exactly at elapsed time 10000 ms (the fixed 10 s timeout, polled every
100 ms) and connect() returns false — it never blocks indefinitely. -/
theorem connect_timeout_10s (rf : String → Except String String)
    (s : EventGridMqttClient) (events : List (Nat × MqttEvent)) (cert key : String)
    (hcert : rf s.clientCertFile = Except.ok cert)
    (hkey : rf s.clientKeyFile = Except.ok key)
    (hsc : s.connected = false)
    (hnone : ∀ p ∈ events, isSuccessAck p.2 = false) :
    connectLoop (fun t => (stateAt { s with client := some () } events t).connected) =
      (false, 10000) ∧
    (connect rf s events).map (fun r => (r.1, r.2.connected)) = Except.ok (false, false) :=
  connect_failure_run rf s events cert key hcert hkey hsc hnone

/-- Witness for C3: only an error event and a CONNACK with reason code 135
arrive; the loop exits at 10000 ms with false. -/
theorem connect_timeout_10s_witness :
    connectLoop (fun t => (stateAt { sDemo with client := some () }
      [(50, MqttEvent.error "boom"), (60, MqttEvent.connack (some 135))] t).connected) =
      (false, 10000) ∧
    (connect rfOk sDemo [(50, MqttEvent.error "boom"), (60, MqttEvent.connack (some 135))]).map
      (fun r => (r.1, r.2.connected)) = Except.ok (false, false) :=
  connect_timeout_10s rfOk sDemo
    [(50, MqttEvent.error "boom"), (60, MqttEvent.connack (some 135))]
    "PEM-DATA" "PEM-DATA" rfl rfl rfl (by decide)

/-! ### C4 -/

/-- C4: for every topic, payload and QoS, subscribe() and publish() called
while the session is not Connected (no client handle yet, or the connected
flag is down — in particular right after construction) return false with no
emitted network packet and no state change. -/
theorem subscribe_publish_require_connected (s : EventGridMqttClient)
    (topic : String) (qos : Nat) (cb : Except String Unit) (ev : PublishEvent)
    (h : s.client = none ∨ s.connected = false) :
    subscribe s topic qos cb = ((false, []), s) ∧
    publish s topic ev qos cb = ((false, []), s) := by
  have hg : (s.client.isNone || !s.connected) = true := by
    rcases h with h | h <;> simp [h]
  constructor
  · unfold subscribe
    rw [hg]
    rfl
  · unfold publish
    rw [hg]
    rfl

/-- Witness for C4: the freshly constructed demo client rejects both calls. -/
theorem subscribe_publish_require_connected_witness :
    subscribe sDemo "tcu/camera/report" 1 (Except.ok ()) = ((false, []), sDemo) ∧
    publish sDemo "tcu/client1/reservation/update" ([("id", "ts-sample-001")] : PublishEvent)
      1 (Except.ok ()) = ((false, []), sDemo) :=
  ⟨(subscribe_publish_require_connected sDemo "tcu/camera/report" 1 (Except.ok ())
      ([] : PublishEvent) (Or.inl rfl)).1,
   (subscribe_publish_require_connected sDemo "tcu/client1/reservation/update" 1 (Except.ok ())
      ([("id", "ts-sample-001")] : PublishEvent) (Or.inl rfl)).2⟩

/-! ### C5 -/

/-- C5 counterexample: with the client certificate file unreadable at call
time (construction had succeeded earlier), connect() propagates the
`readFileSync` exception to the caller instead of converting it to a boolean
failure — refuting the claim that every public operation catches every
runtime error. -/
theorem connect_propagates_read_error :
    connect rfENOENT sDemo [] =
      Except.error "ENOENT: no such file or directory, open admin_public_key.pem" := rfl

/-- C5 amended: subscribe() and publish() convert transport-reported errors
into a false result (plus a logged line) rather than raising, and
disconnect() performs no fallible work, but connect() does not guard its
credential-file reads: a read failure there propagates to the caller as an
exception. -/
theorem operation_error_boundaries (s : EventGridMqttClient) (topic : String)
    (qos : Nat) (e : String) (ev : PublishEvent) (events : List (Nat × MqttEvent))
    (rf : String → Except String String) (msg : String)
    (hrf : rf s.clientCertFile = Except.error msg) :
    ((subscribe s topic qos (Except.error e)).1).1 = false ∧
    ((publish s topic ev qos (Except.error e)).1).1 = false ∧
    connect rf s events = Except.error msg := by
  refine ⟨?_, ?_, ?_⟩
  · unfold subscribe
    split
    · rfl
    · rfl
  · unfold publish
    split
    · rfl
    · rfl
  · unfold connect
    rw [hrf]

/-- Witness for the amended C5 on the connected demo client. -/
theorem operation_error_boundaries_witness :
    ((subscribe { sDemo with client := some (), connected := true } "tcu/camera/report" 1
        (Except.error "suback error")).1).1 = false ∧
    ((publish { sDemo with client := some (), connected := true } "tcu/camera/report"
        ([("id", "e1")] : PublishEvent) 1 (Except.error "puback error")).1).1 = false ∧
    connect rfENOENT { sDemo with client := some (), connected := true } [] =
      Except.error "ENOENT: no such file or directory, open admin_public_key.pem" :=
  operation_error_boundaries { sDemo with client := some (), connected := true }
    "tcu/camera/report" 1 "suback error" ([("id", "e1")] : PublishEvent) []
    rfENOENT "ENOENT: no such file or directory, open admin_public_key.pem" rfl

/-!
The "suback error" / "puback error" strings above play the role of the
`err.message` a failing broker callback reports; per theorem
`operation_error_boundaries` they surface only as a false return value.
-/

/-! ### C6 -/

/-- C6: disconnect() is idempotent and leads to the Disconnected state: it
never writes any session field itself (so it cannot throw), it issues a
forced MQTT DISCONNECT with empty properties exactly when a session handle
exists (and is a no-op otherwise), the close event its END call provokes
drops `connected` to false, and a second disconnect() behaves exactly like
the first — a no-op on the session state. -/
theorem disconnect_idempotent_noop (s : EventGridMqttClient) :
    (disconnect s).1 = s ∧
    (disconnect s).2 = (if s.client.isSome then [NetAction.endAct true []] else []) ∧
    (onClose (disconnect s).1).connected = false ∧
    disconnect (disconnect s).1 = disconnect s := by
  cases hc : s.client with
  | none => simp [disconnect, onClose, hc]
  | some u => simp [disconnect, onClose, hc]

/-! ### C7 -/

/-- The clientId of 24 copies of the offending character @. -/
def cid24 : String := "@@@@@@@@@@@@@@@@@@@@@@@@"

/-- An otherwise valid configuration whose clientId is 24 copies of @. -/
def optsLongBadId : EventGridMqttClientOptions :=
  { «namespace» := "ns", region := "eastus", clientId := cid24, username := "u",
    clientCertFile := "c.pem", clientKeyFile := "k.pem" }

/-- C7 counterexample: a clientId made of 24 copies of the offending
character @ contains characters outside [A-Za-z0-9_-], yet construction
fails with the length error, whose message is not the one listing the set of
offending characters — so the message does not list exactly the deduplicated
offending set for every such clientId. -/
theorem clientId_charset_message_counterexample :
    mkEventGridMqttClient fsAll optsLongBadId =
      Except.error ("Client ID '" ++ cid24 ++
        "' is 24 characters long. MQTT client ID must be ≤ 23 characters.") ∧
    ("Client ID '" ++ cid24 ++
        "' is 24 characters long. MQTT client ID must be ≤ 23 characters.") ≠
      ("Client ID '" ++ cid24 ++ "' contains invalid characters: " ++
        String.mk (invalidCharsOf cid24)) :=
  ⟨rfl, by decide⟩

set_option maxHeartbeats 4000000 in
/-- C7 amended: for every clientId containing at least one character outside
[A-Za-z0-9_-], provided the earlier checks pass (required fields non-empty
and clientId at most 23 characters — otherwise their error is thrown first),
construction fails with the invalid-characters error, and the character list
in that message contains each offending character exactly once and no other
character. -/
theorem clientId_invalid_chars_message (fsExists : String → Bool)
    (opts : EventGridMqttClientOptions) (c0 : Char)
    (hns : opts.«namespace» ≠ "") (hr : opts.region ≠ "") (hu : opts.username ≠ "")
    (hcf : opts.clientCertFile ≠ "") (hkf : opts.clientKeyFile ≠ "")
    (hlen : opts.clientId.length ≤ 23)
    (hc0 : c0 ∈ opts.clientId.toList) (hbad : isAllowedChar c0 = false) :
    mkEventGridMqttClient fsExists opts =
      Except.error ("Client ID '" ++ opts.clientId ++ "' contains invalid characters: " ++
        String.mk (invalidCharsOf opts.clientId)) ∧
    (∀ c : Char, (invalidCharsOf opts.clientId).count c =
      if c ∈ opts.clientId.toList ∧ isAllowedChar c = false then 1 else 0) := by
  constructor
  · have hval : validateConfiguration fsExists (initialState opts) =
        Except.error ("Client ID '" ++ opts.clientId ++
          "' contains invalid characters: " ++ String.mk (invalidCharsOf opts.clientId)) := by
      unfold validateConfiguration
      split_ifs with h1 h2 h3 h4 h5 h6 h7 h8
      · exact absurd h1 hns
      · exact absurd h2 hr
      · rw [show (initialState opts).clientId = opts.clientId from rfl] at h3
        rw [h3] at hc0
        simp at hc0
      · exact absurd h4 hu
      · exact absurd h5 hcf
      · exact absurd h6 hkf
      · exact absurd h7 (by simp only [initialState]; omega)
      · rfl
      all_goals
        exact absurd (List.length_pos.mpr (List.ne_nil_of_mem
          ((mem_invalidCharsOf opts.clientId c0).mpr ⟨hc0, hbad⟩))) h8
    unfold mkEventGridMqttClient
    rw [hval]
  · intro c
    by_cases hcm : c ∈ invalidCharsOf opts.clientId
    · rw [if_pos ((mem_invalidCharsOf opts.clientId c).mp hcm)]
      exact List.count_eq_one_of_mem (nodup_invalidCharsOf opts.clientId) hcm
    · rw [if_neg (fun hcond => hcm ((mem_invalidCharsOf opts.clientId c).mpr hcond))]
      exact List.count_eq_zero.mpr hcm

/-- Witness for the amended C7: clientId "ab@c!@" yields the message listing
@ then !, each once. -/
theorem clientId_invalid_chars_message_witness :
    mkEventGridMqttClient fsAll
        { «namespace» := "ns", region := "eastus", clientId := "ab@c!@", username := "u",
          clientCertFile := "c.pem", clientKeyFile := "k.pem" } =
      Except.error ("Client ID '" ++ "ab@c!@" ++ "' contains invalid characters: " ++
        String.mk (invalidCharsOf "ab@c!@")) ∧
    (invalidCharsOf "ab@c!@").count '@' = 1 := by
  have h := clientId_invalid_chars_message fsAll
    { «namespace» := "ns", region := "eastus", clientId := "ab@c!@", username := "u",
      clientCertFile := "c.pem", clientKeyFile := "k.pem" } '@'
    (by decide) (by decide) (by decide) (by decide) (by decide) (by decide)
    (by decide) (by decide)
  refine ⟨h.1, ?_⟩
  have h2 := h.2 '@'
  rw [if_pos (by decide)] at h2
  exact h2

/-! ### C8 -/

/-- C8: for every validated configuration, connect() derives the broker
endpoint exactly as mqtts://(namespace).(region)-1.(eventgrid domain):8883
with domain ts.eventgrid.azure.net and TLS port 8883, and the client options
carry MQTT protocol version 5. -/
theorem broker_endpoint_formula (s : EventGridMqttClient) (cert key : String) :
    brokerUrl s = spec_brokerEndpoint s.«namespace» s.region "ts.eventgrid.azure.net" ∧
    (connectOptions s cert key).protocolVersion = 5 := by
  constructor
  · unfold brokerUrl spec_brokerEndpoint
    simp only [String.append_assoc]
    congr 1
  · rfl

/-! ### C9 -/

/-- C9: a connect-acknowledgment carrying no reason code at all is treated
as reason code 0 (`packet.reasonCode ?? 0`), i.e. as success: the handler
raises the connected flag, and a connect() run receiving only such a packet
within the window returns true with the session Connected. -/
theorem connack_without_reason_code_is_success (rf : String → Except String String)
    (s : EventGridMqttClient) (cert key : String) (t0 : Nat)
    (hcert : rf s.clientCertFile = Except.ok cert)
    (hkey : rf s.clientKeyFile = Except.ok key)
    (ht0 : t0 ≤ 10000) :
    (onConnect none s).connected = true ∧
    (connect rf s [(t0, MqttEvent.connack none)]).map (fun r => (r.1, r.2.connected)) =
      Except.ok (true, true) := by
  constructor
  · rfl
  · apply connect_success_run rf s _ cert key hcert hkey
    · exact ⟨t0, MqttEvent.connack none, List.mem_singleton.mpr rfl, rfl, ht0⟩
    · intro p hp
      rw [List.mem_singleton.mp hp]
      exact fun hh => MqttEvent.noConfusion hh

/-- Witness for C9: a reason-code-free CONNACK at t = 250 ms. -/
theorem connack_without_reason_code_is_success_witness :
    (onConnect none sDemo).connected = true ∧
    (connect rfOk sDemo [(250, MqttEvent.connack none)]).map
      (fun r => (r.1, r.2.connected)) = Except.ok (true, true) :=
  connack_without_reason_code_is_success rfOk sDemo "PEM-DATA" "PEM-DATA" 250
    rfl rfl (by decide)

/-! ### C10 -/

/-- C10: a successfully constructed client satisfies the configuration
invariant (namespace, region, clientId, username and both credential paths
non-empty; clientId at most 23 characters, all in [A-Za-z0-9_-]), and the
configuration is never mutated afterwards: the state connect() returns
carries the same configuration (hence still satisfies the invariant), every
transport event handler and disconnect() leave it untouched, and
subscribe()/publish() return the session state unchanged. -/
theorem config_invariant_preserved (fsExists : String → Bool)
    (opts : EventGridMqttClientOptions) (s st : EventGridMqttClient)
    (rf : String → Except String String) (events : List (Nat × MqttEvent)) (b : Bool)
    (e : MqttEvent) (topic : String) (qos : Nat) (cb : Except String Unit) (ev : PublishEvent)
    (hmk : mkEventGridMqttClient fsExists opts = Except.ok s)
    (hcon : connect rf s events = Except.ok (b, st)) :
    ConfigValid s ∧ configOf st = configOf s ∧ ConfigValid st ∧
    configOf (handleEvent st e) = configOf st ∧
    configOf (disconnect st).1 = configOf st ∧
    (subscribe st topic qos cb).2 = st ∧ (publish st topic ev qos cb).2 = st := by
  obtain ⟨hinit, hvalok⟩ := mk_ok_inv fsExists opts s hmk
  have hvalid : ConfigValid s := by
    have h := (validateConfiguration_ok_iff fsExists s).mp hvalok
    exact ⟨h.1, h.2.1, h.2.2.1, h.2.2.2.1, h.2.2.2.2.1, h.2.2.2.2.2.1,
      h.2.2.2.2.2.2.1, h.2.2.2.2.2.2.2.1⟩
  have hcfg : configOf st = configOf s := connect_ok_inv rf s st events b hcon
  refine ⟨hvalid, hcfg, configValid_of_configOf_eq st s hcfg hvalid,
    configOf_handleEvent st e, ?_, ?_, ?_⟩
  · cases hc : st.client <;> simp [disconnect, hc]
  · cases cb <;> (unfold subscribe; split <;> rfl)
  · cases cb <;> (unfold publish; split <;> rfl)

/-- Witness for C10 on the demo configuration. -/
theorem config_invariant_preserved_witness :
    ConfigValid sDemo ∧
    configOf { sDemo with client := some () } = configOf sDemo ∧
    ConfigValid { sDemo with client := some () } ∧
    configOf (handleEvent { sDemo with client := some () } MqttEvent.close) =
      configOf { sDemo with client := some () } ∧
    configOf (disconnect { sDemo with client := some () }).1 =
      configOf { sDemo with client := some () } ∧
    (subscribe { sDemo with client := some () } "tcu/camera/report" 1 (Except.ok ())).2 =
      { sDemo with client := some () } ∧
    (publish { sDemo with client := some () } "tcu/camera/report"
        ([("id", "e1")] : PublishEvent) 1 (Except.ok ())).2 =
      { sDemo with client := some () } :=
  config_invariant_preserved fsAll optsDemo sDemo { sDemo with client := some () }
    rfOk [] false MqttEvent.close "tcu/camera/report" 1 (Except.ok ())
    ([("id", "e1")] : PublishEvent) rfl rfl

end EventGrid
